import Mathlib

set_option autoImplicit false

/-!
Shallow embedding of the BrainLink backend (Express + MongoDB).

Sources:
* `src/db.ts` — the Mongoose schemas (User, Content, Link) and the
  `userMiddleware` bearer-token middleware.
* `src/index.ts` — the route handlers: signup, signin, content CRUD,
  brain share/unshare, public share-link resolution.

The document store is modelled as plain lists of records; `findOne`
returns the first matching record, `deleteOne` removes the first
matching record (at most one).  External collaborators (the `jsonwebtoken`
library, `bcrypt`, the `random` helper from the repository's `utils.ts`,
which is not present under `src/`) are passed in as parameters or
modelled from the spec where noted.
-/

namespace BrainLink

/-! ## Data model (src/db.ts) -/

/-- A User document: `_id` (modelled as the `id` field), unique `username`,
and the bcrypt `password` hash. -/
structure User where
  id : String
  username : String
  password : String
deriving DecidableEq, Repr

/-- A Content document: `link`, `type`, `title`, owning `userId`, `tags`. -/
structure Content where
  id : String
  link : String
  type : String
  title : String
  userId : String
  tags : List String
deriving DecidableEq, Repr

/-- A Link document (share link): random `hash` code and owning `userId`. -/
structure Link where
  hash : String
  userId : String
deriving DecidableEq, Repr

/-! ## JWT model

`jsonwebtoken.verify` either throws (invalid/expired signature), returns a
bare string payload, or returns a structured `JwtPayload` object whose `id`
field may or may not be present.  The middleware only inspects the shape of
the decoded value, so for the middleware we keep the verifier abstract. -/

/-- The result of a successful `jwt.verify`: a bare string payload or a
structured object payload carrying an optional `id` claim. -/
inductive Payload where
  | str (s : String)
  | obj (id : Option String)
deriving DecidableEq, Repr

/-- JavaScript truthiness of a decoded payload: the empty string is falsy;
every other string and every object is truthy. -/
def Payload.truthy : Payload → Bool
  | .str s => !s.isEmpty
  | .obj _ => true

/-- Outcome of the middleware: an HTTP rejection, or proceeding to the
handler with `req.userId` bound to the decoded `id` claim (which may be
absent). -/
inductive AuthOutcome where
  | reject (status : Nat) (message : String)
  | proceed (userId : Option String)
deriving DecidableEq, Repr

/-- Token extraction from the authorization header: both raw-token and
`Bearer `-prefixed forms are accepted (src/db.ts, `userMiddleware`). -/
def extractToken (header : String) : String :=
  if header.startsWith ("Bearer ") then header.drop 7 else header

/-- The Identity Verifier middleware (`userMiddleware`, src/db.ts).
`verify` abstracts `jwt.verify tok JWT_PASSWORD`: `none` when it throws,
`some payload` otherwise. -/
def userMiddleware (verify : String → Option Payload) (header : Option String) :
    AuthOutcome :=
  match header with
  | none => .reject 401 ("Authorization header is required")
  | some h =>
    match verify (extractToken h) with
    | none => .reject 401 ("Invalid or expired token")
    | some decoded =>
      if decoded.truthy then
        match decoded with
        | .str _ => .reject 403 ("Invalid token format")
        | .obj i => .proceed i
      else
        .reject 403 ("You are not logged in")

/-! ## Signed tokens for the Credential Issuer (signin)

Modelled from the spec: the signing mechanism's own semantics — a token
signed with a secret verifies against exactly that secret, and fails once
its `exp` claim (when present) has passed.  The signin handler itself is
embedded from src/index.ts. -/

/-- The claims the backend can place in a token: the `id` claim and the
standard `exp` expiry claim. -/
structure JwtClaims where
  id : Option String
  exp : Option Nat
deriving DecidableEq, Repr

/-- A signed token: the claims plus the secret used to sign. -/
structure SignedToken where
  claims : JwtClaims
  secret : String
deriving DecidableEq, Repr

/-- `jwt.sign claims secret` with no options. -/
def jwtSign (claims : JwtClaims) (secret : String) : SignedToken :=
  ⟨claims, secret⟩

/-- Modelled from the spec: verification succeeds at time `now` iff the
secret matches and the token's `exp` claim, when set, has not passed. -/
def jwtVerifyClaims (tok : SignedToken) (secret : String) (now : Nat) :
    Option JwtClaims :=
  if tok.secret = secret then
    match tok.claims.exp with
    | none => some tok.claims
    | some e => if now < e then some tok.claims else none
  else none

/-! ## Find helpers (Mongo findOne on the modelled store) -/

/-- `UserModel.findOne {username}`: first record with that username. -/
def findUserByUsername : List User → String → Option User
  | [], _ => none
  | u :: rest, username =>
    if u.username = username then some u else findUserByUsername rest username

/-- `UserModel.findOne {_id}`: first record with that id. -/
def findUserById : List User → String → Option User
  | [], _ => none
  | u :: rest, uid =>
    if u.id = uid then some u else findUserById rest uid

/-- `LinkModel.findOne {userId}`: first link of that user. -/
def findLinkByUser : List Link → String → Option Link
  | [], _ => none
  | l :: rest, uid =>
    if l.userId = uid then some l else findLinkByUser rest uid

/-- `LinkModel.findOne {hash}`: first link with that hash. -/
def findLinkByHash : List Link → String → Option Link
  | [], _ => none
  | l :: rest, h =>
    if l.hash = h then some l else findLinkByHash rest h

/-- `ContentModel.find {userId}`: all of one user's content, in order. -/
def contentOfUser : List Content → String → List Content
  | [], _ => []
  | c :: rest, uid =>
    if c.userId = uid then c :: contentOfUser rest uid else contentOfUser rest uid

/-! ## Signup handler (POST /api/v1/signup, src/index.ts) -/

/-- Signup result: success message or an error status/message. -/
inductive SignupResult where
  | ok (message : String)
  | reject (status : Nat) (message : String)
deriving DecidableEq, Repr

/-- `POST /api/v1/signup`.  `hashpw` abstracts `bcrypt.hash`; `newId` is the
store-assigned id of the would-be new document.  The zod schema requires
username length 3..50 and password length 6..100; the unique index on
`username` (UserSchema, src/db.ts) makes `create` fail with duplicate-key
code 11000 when the username exists, which the handler maps to 409. -/
def signupHandler (hashpw : String → String) (users : List User)
    (newId username password : String) : List User × SignupResult :=
  if username.length < 3 ∨ 50 < username.length ∨
      password.length < 6 ∨ 100 < password.length then
    (users, .reject 400 ("Validation error"))
  else if users.any (fun u => u.username == username) then
    (users, .reject 409 ("Username already exists"))
  else
    (users ++ [⟨newId, username, hashpw password⟩], .ok ("User signed up successfully"))

/-! ## Signin handler (POST /api/v1/signin, src/index.ts) -/

/-- Signin result: a signed token, or an error status/message. -/
inductive SigninResult where
  | token (t : SignedToken)
  | reject (status : Nat) (message : String)
deriving DecidableEq, Repr

/-- `POST /api/v1/signin`.  `compare` abstracts `bcrypt.compare`; the zod
schema requires both fields non-empty.  On success the handler signs the
single claim `{id: user._id}` with the shared secret and no expiry. -/
def signinHandler (compare : String → String → Bool) (secret : String)
    (users : List User) (username password : String) : SigninResult :=
  if username.length < 1 ∨ password.length < 1 then
    .reject 400 ("Validation error")
  else
    match findUserByUsername users username with
    | none => .reject 403 ("Invalid credentials")
    | some u =>
      if compare password u.password then
        .token (jwtSign ⟨some u.id, none⟩ secret)
      else
        .reject 403 ("Invalid credentials")

/-! ## Content deletion (DELETE /api/v1/content/:contentId and
DELETE /api/v1/content, src/index.ts) -/

/-- One character of the JS regex class `[0-9a-fA-F]`. -/
def isHexDigit (c : Char) : Bool :=
  (('0' ≤ c ∧ c ≤ '9') ∨ ('a' ≤ c ∧ c ≤ 'f') ∨ ('A' ≤ c ∧ c ≤ 'F') : Prop)

/-- The JS test `contentId.match(/^[0-9a-fA-F]{24}$/)`: exactly 24 hex
characters. -/
def matchesObjectIdFormat (s : String) : Bool :=
  s.length == 24 && s.toList.all isHexDigit

/-- `ContentModel.deleteOne {_id: cid, userId: uid}`: removes the first
record matching BOTH the id and the owner (a single atomic filter), and
reports the number of deleted records (0 or 1). -/
def deleteOneContent : List Content → String → String → List Content × Nat
  | [], _, _ => ([], 0)
  | c :: rest, cid, uid =>
    if c.id = cid ∧ c.userId = uid then (rest, 1)
    else
      let r := deleteOneContent rest cid uid
      (c :: r.1, r.2)

/-- An HTTP status/message response. -/
structure Resp where
  status : Nat
  message : String
deriving DecidableEq, Repr

/-- `DELETE /api/v1/content/:contentId` (id taken from the path): 400 on bad
id format, otherwise an `{_id, userId}`-scoped deleteOne; 404 when zero
records were deleted, 200 otherwise. -/
def deleteContentByParam (db : List Content) (uid cid : String) :
    List Content × Resp :=
  if matchesObjectIdFormat cid = false then
    (db, ⟨400, ("Invalid content ID format")⟩)
  else
    let r := deleteOneContent db cid uid
    if r.2 = 0 then (r.1, ⟨404, ("Content not found or not authorized to delete")⟩)
    else (r.1, ⟨200, ("Content deleted successfully")⟩)

/-- `DELETE /api/v1/content` (id taken from the JSON body): the zod schema
requires a `contentId` string of length ≥ 1 (`none` models an absent or
non-string field); then the same format check, scoped delete and responses
as the path variant. -/
def deleteContentByBody (db : List Content) (uid : String) (body : Option String) :
    List Content × Resp :=
  match body with
  | none => (db, ⟨400, ("Validation error")⟩)
  | some cid =>
    if cid.length < 1 then (db, ⟨400, ("Validation error")⟩)
    else if matchesObjectIdFormat cid = false then
      (db, ⟨400, ("Invalid content ID format")⟩)
    else
      let r := deleteOneContent db cid uid
      if r.2 = 0 then (r.1, ⟨404, ("Content not found or not authorized to delete")⟩)
      else (r.1, ⟨200, ("Content deleted successfully")⟩)

/-! ## Brain sharing (POST /api/v1/brain/share, src/index.ts) -/

/-- Share result: the share code, a plain success message, or an error. -/
inductive ShareResult where
  | hash (h : String)
  | message (m : String)
  | reject (status : Nat) (message : String)
deriving DecidableEq, Repr

/-- `LinkModel.deleteOne {userId}`: removes the first link of that user. -/
def deleteOneLinkByUser : List Link → String → List Link
  | [], _ => []
  | l :: rest, uid =>
    if l.userId = uid then rest else l :: deleteOneLinkByUser rest uid

/-- `POST /api/v1/brain/share`.  `freshHash` abstracts the value of
`random(10)` from the repository's `utils.ts` (not under `src/`); modelled
from the spec it is a fresh 10-character alphanumeric code.  share=true:
return the existing link's hash if one exists, else persist and return the
fresh code.  share=false: deleteOne the user's link and report success. -/
def shareBrainHandler (freshHash : String) (links : List Link) (uid : String)
    (share : Bool) : List Link × ShareResult :=
  if share then
    match findLinkByUser links uid with
    | some l => (links, .hash l.hash)
    | none => (links ++ [⟨freshHash, uid⟩], .hash freshHash)
  else
    (deleteOneLinkByUser links uid, .message ("Removed link"))

/-! ## Public share-link resolution (GET /api/v1/brain/:shareLink,
src/index.ts) -/

/-- Resolve result: the owner's username with the full content collection,
or an error status/message.  The endpoint takes no credential. -/
inductive BrainResult where
  | ok (username : String) (content : List Content)
  | reject (status : Nat) (message : String)
deriving DecidableEq, Repr

/-- `GET /api/v1/brain/:shareLink`: 400 unless the code is a non-empty
string of length exactly 10 (before any store lookup); 404 when no link has
that hash; then the owner's content is fetched and the owner looked up by
id — 404 when the user record is absent, else the username and content. -/
def getSharedBrainHandler (users : List User) (contents : List Content)
    (links : List Link) (shareLink : String) : BrainResult :=
  if shareLink = "" ∨ shareLink.length ≠ 10 then
    .reject 400 ("Invalid share link format")
  else
    match findLinkByHash links shareLink with
    | none => .reject 404 ("Share link not found")
    | some link =>
      let content := contentOfUser contents link.userId
      match findUserById users link.userId with
      | none => .reject 404 ("User not found")
      | some user => .ok user.username content

/-! ## Helper lemmas -/

/-- A record matching neither the id nor the owner part of the delete filter
survives `deleteOneContent`. -/
theorem deleteOneContent_mem_of_not_match (db : List Content) (cid uid : String)
    (c : Content) (hc : c ∈ db) (hne : ¬(c.id = cid ∧ c.userId = uid)) :
    c ∈ (deleteOneContent db cid uid).1 := by
  induction db with
  | nil => cases hc
  | cons a rest ih =>
    by_cases ha : a.id = cid ∧ a.userId = uid
    · simp only [deleteOneContent, if_pos ha]
      rcases List.mem_cons.mp hc with h1 | h1
      · exact absurd (h1 ▸ ha) hne
      · exact h1
    · simp only [deleteOneContent, if_neg ha]
      rcases List.mem_cons.mp hc with h1 | h1
      · exact h1 ▸ List.mem_cons_self _ _
      · exact List.mem_cons_of_mem _ (ih h1)

/-- When no record matches the whole `{_id, userId}` filter, `deleteOneContent`
deletes nothing and leaves the store unchanged. -/
theorem deleteOneContent_eq_of_no_match (db : List Content) (cid uid : String)
    (h : ∀ c ∈ db, ¬(c.id = cid ∧ c.userId = uid)) :
    deleteOneContent db cid uid = (db, 0) := by
  induction db with
  | nil => rfl
  | cons a rest ih =>
    have ha := h a (List.mem_cons_self a rest)
    have hrest := ih (fun c hc => h c (List.mem_cons_of_mem a hc))
    simp [deleteOneContent, if_neg ha, hrest]

/-! ## Claim theorems -/

/-- Claim C1: on a protected endpoint the Identity Verifier middleware
produces exactly one of four outcomes: missing authorization header → 401
(credential required); header present but the token fails verification →
401 (invalid or expired); token verifies to a bare string payload → 403;
otherwise the decoded identity is bound and the request proceeds. -/
theorem userMiddleware_four_outcomes (verify : String → Option Payload)
    (header : Option String) :
    (header = none ∧
      userMiddleware verify header = .reject 401 ("Authorization header is required"))
    ∨ (∃ h, header = some h ∧ verify (extractToken h) = none ∧
        userMiddleware verify header = .reject 401 ("Invalid or expired token"))
    ∨ (∃ h s, header = some h ∧ verify (extractToken h) = some (.str s) ∧
        (userMiddleware verify header = .reject 403 ("Invalid token format") ∨
         userMiddleware verify header = .reject 403 ("You are not logged in")))
    ∨ (∃ h i, header = some h ∧ verify (extractToken h) = some (.obj i) ∧
        userMiddleware verify header = .proceed i) := by
  cases header with
  | none => exact Or.inl ⟨rfl, rfl⟩
  | some h =>
    cases hv : verify (extractToken h) with
    | none =>
      refine Or.inr (Or.inl ⟨h, rfl, hv, ?_⟩)
      simp [userMiddleware, hv]
    | some p =>
      cases p with
      | str s =>
        refine Or.inr (Or.inr (Or.inl ⟨h, s, rfl, hv, ?_⟩))
        by_cases hs : s.isEmpty
        · right; simp [userMiddleware, hv, Payload.truthy, hs]
        · left; simp [userMiddleware, hv, Payload.truthy, hs]
      | obj i =>
        refine Or.inr (Or.inr (Or.inr ⟨h, i, rfl, hv, ?_⟩))
        simp [userMiddleware, hv, Payload.truthy]

/-- Claim C2: the delete-content operation removes a record only when that
record's owner equals the requester (every record not matching the whole
`{_id, userId}` filter survives), and a delete aimed at a record owned by
someone else (no record matches both id and owner) affects zero records,
returns 404 with the single non-distinguishing message, and leaves the
store unchanged.  Ownership is part of the one atomic delete filter. -/
theorem deleteContent_owner_scoped (db : List Content) (uid cid : String)
    (hfmt : matchesObjectIdFormat cid = true) :
    (∀ c, c ∈ db → ¬(c.id = cid ∧ c.userId = uid) →
      c ∈ (deleteContentByParam db uid cid).1) ∧
    ((∀ c, c ∈ db → ¬(c.id = cid ∧ c.userId = uid)) →
      deleteContentByParam db uid cid
        = (db, ⟨404, ("Content not found or not authorized to delete")⟩)) := by
  constructor
  · intro c hc hne
    have hmem := deleteOneContent_mem_of_not_match db cid uid c hc hne
    by_cases h0 : (deleteOneContent db cid uid).2 = 0
    · simpa [deleteContentByParam, hfmt, h0] using hmem
    · simpa [deleteContentByParam, hfmt, h0] using hmem
  · intro hall
    have hnone := deleteOneContent_eq_of_no_match db cid uid hall
    simp [deleteContentByParam, hfmt, hnone]

/-- Witness for C2: user `alice` deleting a record owned by `bob` gets 404
and the store is unchanged. -/
theorem deleteContent_owner_scoped_witness :
    deleteContentByParam
        [⟨"cccccccccccccccccccccccc", "https://x.com/1", "twitter", "t", "bob", []⟩]
        ("alice") ("cccccccccccccccccccccccc")
      = ([⟨"cccccccccccccccccccccccc", "https://x.com/1", "twitter", "t", "bob", []⟩],
         ⟨404, ("Content not found or not authorized to delete")⟩) :=
  (deleteContent_owner_scoped
      [⟨"cccccccccccccccccccccccc", "https://x.com/1", "twitter", "t", "bob", []⟩]
      ("alice") ("cccccccccccccccccccccccc") (by decide)).2 (by decide)

/-- Claim C9: for a non-empty contentId, the path-parameter delete endpoint
and the JSON-body delete endpoint behave identically: same format check,
same owner-scoped delete, same response, same resulting store. -/
theorem deleteContent_param_body_equivalent (db : List Content) (uid cid : String)
    (h : 1 ≤ cid.length) :
    deleteContentByBody db uid (some cid) = deleteContentByParam db uid cid := by
  have h0 : ¬ cid.length < 1 := by omega
  simp [deleteContentByBody, deleteContentByParam, h0]

/-- Witness for C9: both delete endpoints agree on a concrete request. -/
theorem deleteContent_param_body_equivalent_witness :
    deleteContentByBody [] ("u") (some ("cccccccccccccccccccccccc"))
      = deleteContentByParam [] ("u") ("cccccccccccccccccccccccc") :=
  deleteContent_param_body_equivalent [] ("u") ("cccccccccccccccccccccccc") (by decide)

/-- Claim C3: a signin whose username exists but whose password is wrong and
a signin whose username does not exist produce observably identical
responses: both status 403 with message `Invalid credentials`. -/
theorem signin_credentials_parity (compare : String → String → Bool) (secret : String)
    (users : List User) (u1 p1 u2 p2 : String) (usr : User)
    (hl1 : 1 ≤ u1.length) (hl2 : 1 ≤ p1.length)
    (hl3 : 1 ≤ u2.length) (hl4 : 1 ≤ p2.length)
    (hfind1 : findUserByUsername users u1 = some usr)
    (hwrong : compare p1 usr.password = false)
    (hfind2 : findUserByUsername users u2 = none) :
    signinHandler compare secret users u1 p1 = .reject 403 ("Invalid credentials") ∧
    signinHandler compare secret users u2 p2 = .reject 403 ("Invalid credentials") ∧
    signinHandler compare secret users u1 p1 = signinHandler compare secret users u2 p2 := by
  have g1 : ¬(u1.length < 1 ∨ p1.length < 1) := by omega
  have g2 : ¬(u2.length < 1 ∨ p2.length < 1) := by omega
  have e1 : signinHandler compare secret users u1 p1
      = .reject 403 ("Invalid credentials") := by
    simp [signinHandler, g1, hfind1, hwrong]
    omega
  have e2 : signinHandler compare secret users u2 p2
      = .reject 403 ("Invalid credentials") := by
    simp [signinHandler, g2, hfind2]
    omega
  exact ⟨e1, e2, e1.trans e2.symm⟩

/-- Witness for C3: wrong password for existing `alice` rejects exactly as a
nonexistent username does. -/
theorem signin_credentials_parity_witness :
    signinHandler (fun _ _ => false) ("!123123") [⟨"u1", "alice", "H"⟩] ("alice") ("x")
      = .reject 403 ("Invalid credentials") :=
  (signin_credentials_parity (fun _ _ => false) ("!123123") [⟨"u1", "alice", "H"⟩]
    ("alice") ("x") ("bob") ("y") ⟨"u1", "alice", "H"⟩
    (by decide) (by decide) (by decide) (by decide) (by decide) rfl (by decide)).1

/-- Claim C7: a signup reusing an existing username never creates a second
record (the store is unchanged in every case) and, when the request passes
shape validation, is rejected with status 409. -/
theorem signup_duplicate_username (hashpw : String → String) (users : List User)
    (newId username password : String)
    (hdup : ∃ u, u ∈ users ∧ u.username = username) :
    (signupHandler hashpw users newId username password).1 = users ∧
    (¬(username.length < 3 ∨ 50 < username.length ∨
        password.length < 6 ∨ 100 < password.length) →
      signupHandler hashpw users newId username password
        = (users, .reject 409 ("Username already exists"))) := by
  have hany : users.any (fun u => u.username == username) = true := by
    rcases hdup with ⟨u, hu, he⟩
    exact List.any_eq_true.mpr ⟨u, hu, by simp [he]⟩
  constructor
  · by_cases hv : username.length < 3 ∨ 50 < username.length ∨
        password.length < 6 ∨ 100 < password.length
    · simp [signupHandler, hv]
    · simp [signupHandler, hv, hany]
  · intro hv
    simp [signupHandler, hv, hany]

/-- Witness for C7: signing up again as `alice` returns 409 and leaves the
single existing record as the whole store. -/
theorem signup_duplicate_username_witness :
    signupHandler (fun s => s) [⟨"u1", "alice", "H"⟩] ("u2") ("alice") ("secret123")
      = ([⟨"u1", "alice", "H"⟩], .reject 409 ("Username already exists")) :=
  (signup_duplicate_username (fun s => s) [⟨"u1", "alice", "H"⟩] ("u2") ("alice")
    ("secret123") ⟨⟨"u1", "alice", "H"⟩, by simp, rfl⟩).2 (by decide)

/-- Claim C8: a successful signin issues a token over exactly the single
claim `{id: user._id}` with no expiry, signed with the shared secret; the
token verifies at every time against that secret and fails against any
other (rotated) secret. -/
theorem signin_token_claims (compare : String → String → Bool)
    (secret otherSecret : String) (users : List User)
    (username password : String) (usr : User) (now : Nat)
    (hl1 : 1 ≤ username.length) (hl2 : 1 ≤ password.length)
    (hfind : findUserByUsername users username = some usr)
    (hcmp : compare password usr.password = true)
    (hrot : otherSecret ≠ secret) :
    signinHandler compare secret users username password
      = .token (jwtSign ⟨some usr.id, none⟩ secret) ∧
    jwtVerifyClaims (jwtSign ⟨some usr.id, none⟩ secret) secret now
      = some ⟨some usr.id, none⟩ ∧
    jwtVerifyClaims (jwtSign ⟨some usr.id, none⟩ secret) otherSecret now = none := by
  have g : ¬(username.length < 1 ∨ password.length < 1) := by omega
  have h2 : secret ≠ otherSecret := fun he => hrot he.symm
  refine ⟨?_, ?_, ?_⟩
  · simp [signinHandler, g, hfind, hcmp]
    omega
  · simp [jwtVerifyClaims, jwtSign]
  · simp [jwtVerifyClaims, jwtSign, h2]

/-- Witness for C8: `alice` signs in; the token carries only `{id: u1}`,
verifies at an arbitrary later time, and fails after secret rotation. -/
theorem signin_token_claims_witness :
    signinHandler (fun _ _ => true) ("!123123") [⟨"u1", "alice", "H"⟩] ("alice") ("pw")
      = .token (jwtSign ⟨some ("u1"), none⟩ ("!123123")) ∧
    jwtVerifyClaims (jwtSign ⟨some ("u1"), none⟩ ("!123123")) ("!123123") 999999
      = some ⟨some ("u1"), none⟩ ∧
    jwtVerifyClaims (jwtSign ⟨some ("u1"), none⟩ ("!123123")) ("rotated") 999999 = none :=
  signin_token_claims (fun _ _ => true) ("!123123") ("rotated") [⟨"u1", "alice", "H"⟩]
    ("alice") ("pw") ⟨"u1", "alice", "H"⟩ 999999
    (by decide) (by decide) (by decide) rfl (by decide)

/-- A successful `findLinkByUser` returns a member of the store that
belongs to the queried user. -/
theorem findLinkByUser_some (links : List Link) (uid : String) (l : Link)
    (h : findLinkByUser links uid = some l) : l ∈ links ∧ l.userId = uid := by
  induction links with
  | nil => cases h
  | cons a rest ih =>
    by_cases ha : a.userId = uid
    · simp only [findLinkByUser, if_pos ha] at h
      injection h with hh
      subst hh
      exact ⟨List.mem_cons_self _ _, ha⟩
    · simp only [findLinkByUser, if_neg ha] at h
      rcases ih h with ⟨hmem, huid⟩
      exact ⟨List.mem_cons_of_mem _ hmem, huid⟩

/-- When no link of `uid` is in `links`, looking one up in `links ++ [x]`
is the same as looking it up in `[x]`. -/
theorem findLinkByUser_append_of_none (links : List Link) (uid : String) (x : Link)
    (h : findLinkByUser links uid = none) :
    findLinkByUser (links ++ [x]) uid = findLinkByUser [x] uid := by
  induction links with
  | nil => rfl
  | cons a rest ih =>
    by_cases ha : a.userId = uid
    · simp only [findLinkByUser, if_pos ha] at h
      cases h
    · simp only [findLinkByUser, if_neg ha] at h
      rw [List.cons_append]
      simp only [findLinkByUser, if_neg ha]
      exact ih h

/-- When a user has at most one share link, `deleteOneLinkByUser` leaves no
link of that user behind. -/
theorem deleteOneLinkByUser_all_of_le_one (links : List Link) (uid : String)
    (hone : links.countP (fun l => l.userId == uid) ≤ 1) :
    (deleteOneLinkByUser links uid).all (fun l => !(l.userId == uid)) = true := by
  induction links with
  | nil => rfl
  | cons a rest ih =>
    by_cases ha : a.userId = uid
    · have hc : rest.countP (fun l => l.userId == uid) = 0 := by
        rw [List.countP_cons_of_pos] at hone
        · omega
        · simp [ha]
      simp only [deleteOneLinkByUser, if_pos ha]
      rw [List.all_eq_true]
      intro l hl
      have := List.countP_eq_zero.mp hc l hl
      simpa using this
    · have hone2 : rest.countP (fun l => l.userId == uid) ≤ 1 := by
        rw [List.countP_cons_of_neg] at hone
        · exact hone
        · simp [ha]
      simp only [deleteOneLinkByUser, if_neg ha]
      rw [List.all_cons]
      simp [ha, ih hone2]

/-- Claim C4: enabling sharing when a link already exists returns the
existing code and creates no record; two sequential enable calls return the
same 10-character code and the second call leaves exactly the records that
existed after the first.  The fresh code is the spec-modelled `random(10)`
value; existing links of the user carry 10-character codes for the same
reason. -/
theorem shareBrain_enable_idempotent (links : List Link) (uid r1 r2 : String)
    (hr1 : r1.length = 10)
    (hinv : ∀ l, l ∈ links → l.userId = uid → l.hash.length = 10) :
    (∀ l, findLinkByUser links uid = some l →
      shareBrainHandler r1 links uid true = (links, .hash l.hash)) ∧
    (shareBrainHandler r2 (shareBrainHandler r1 links uid true).1 uid true).1
      = (shareBrainHandler r1 links uid true).1 ∧
    (shareBrainHandler r2 (shareBrainHandler r1 links uid true).1 uid true).2
      = (shareBrainHandler r1 links uid true).2 ∧
    ∃ h, (shareBrainHandler r1 links uid true).2 = .hash h ∧ h.length = 10 := by
  cases hfind : findLinkByUser links uid with
  | some l =>
    rcases findLinkByUser_some links uid l hfind with ⟨hlmem, hluid⟩
    have e1 : shareBrainHandler r1 links uid true = (links, .hash l.hash) := by
      simp [shareBrainHandler, hfind]
    have e2 : shareBrainHandler r2 links uid true = (links, .hash l.hash) := by
      simp [shareBrainHandler, hfind]
    refine ⟨?_, ?_, ?_, l.hash, ?_, hinv l hlmem hluid⟩
    · intro l2 hl2
      injection hl2 with hh
      subst hh
      exact e1
    · simp [e1, e2]
    · simp [e1, e2]
    · simp [e1]
  | none =>
    have e1 : shareBrainHandler r1 links uid true
        = (links ++ [⟨r1, uid⟩], .hash r1) := by
      simp [shareBrainHandler, hfind]
    have hfind2 : findLinkByUser (links ++ [⟨r1, uid⟩]) uid = some ⟨r1, uid⟩ := by
      rw [findLinkByUser_append_of_none links uid ⟨r1, uid⟩ hfind]
      simp [findLinkByUser]
    have e2 : shareBrainHandler r2 (links ++ [⟨r1, uid⟩]) uid true
        = (links ++ [⟨r1, uid⟩], .hash r1) := by
      simp [shareBrainHandler, hfind2]
    refine ⟨?_, ?_, ?_, r1, ?_, hr1⟩
    · intro l2 hl2
      exact Option.noConfusion hl2
    · simp [e1, e2]
    · simp [e1, e2]
    · simp [e1]

/-- Witness for C4: enabling twice from an empty store returns the same
code both times. -/
theorem shareBrain_enable_idempotent_witness :
    (shareBrainHandler ("zzzzzzzzzz")
        ((shareBrainHandler ("abcdefghij") [] ("u") true).1) ("u") true).2
      = (shareBrainHandler ("abcdefghij") [] ("u") true).2 :=
  (shareBrain_enable_idempotent [] ("u") ("abcdefghij") ("zzzzzzzzzz") (by decide)
    (fun l hl _ => absurd hl (List.not_mem_nil l))).2.2.1

/-- Counterexample for C5: with two share links for user `u` in the store
(the duplicate state the spec's race can produce), disabling sharing uses
`deleteOne`, so one link of `u` survives — contradicting the claim that no
share link for that user remains even if more than one existed. -/
theorem shareBrain_disable_counterexample :
    shareBrainHandler ("x") [⟨"aaaaaaaaaa", "u"⟩, ⟨"bbbbbbbbbb", "u"⟩] ("u") false
      = ([⟨"bbbbbbbbbb", "u"⟩], .message ("Removed link")) ∧
    ((shareBrainHandler ("x") [⟨"aaaaaaaaaa", "u"⟩, ⟨"bbbbbbbbbb", "u"⟩] ("u") false).1.any
      (fun l => l.userId == "u")) = true := by
  constructor
  · rfl
  · rfl

/-- Claim C5 (amended): disabling sharing deletes the first existing share
link of the user — when at most one exists, none remains — and it is
idempotent: it always responds with the silent success message, also when
no link exists. -/
theorem shareBrain_disable_amended (links : List Link) (uid r : String)
    (hone : links.countP (fun l => l.userId == uid) ≤ 1) :
    ((shareBrainHandler r links uid false).1.all (fun l => !(l.userId == uid))) = true ∧
    (shareBrainHandler r links uid false).2 = .message ("Removed link") := by
  constructor
  · show (deleteOneLinkByUser links uid).all (fun l => !(l.userId == uid)) = true
    exact deleteOneLinkByUser_all_of_le_one links uid hone
  · rfl

/-- Witness for C5 (amended): disabling with exactly one link removes it and
reports success. -/
theorem shareBrain_disable_amended_witness :
    ((shareBrainHandler ("x") [⟨"aaaaaaaaaa", "u"⟩] ("u") false).1.all
      (fun l => !(l.userId == "u"))) = true ∧
    (shareBrainHandler ("x") [⟨"aaaaaaaaaa", "u"⟩] ("u") false).2
      = .message ("Removed link") :=
  shareBrain_disable_amended [⟨"aaaaaaaaaa", "u"⟩] ("u") ("x") (by decide)

/-- Counterexample for C6: a 10-character code whose share link exists but
whose owning user record is absent yields 404 `User not found` rather than
the owner's username and content. -/
theorem getSharedBrain_dangling_counterexample :
    findLinkByHash [⟨"abcdefghij", "u1"⟩] ("abcdefghij") = some ⟨"abcdefghij", "u1"⟩ ∧
    getSharedBrainHandler [] [] [⟨"abcdefghij", "u1"⟩] ("abcdefghij")
      = .reject 404 ("User not found") := by
  constructor
  · rfl
  · rfl

/-- Claim C6 (amended): a resolve request with a code of length ≠ 10 is
rejected 400 independently of the store; a 10-character code with no
matching link yields 404; a code whose link exists and whose owning user
record exists yields the owner's username and full content collection,
with no credential involved. -/
theorem getSharedBrain_resolve_amended (users : List User) (contents : List Content)
    (links : List Link) (c : String) :
    (c.length ≠ 10 → getSharedBrainHandler users contents links c
      = .reject 400 ("Invalid share link format")) ∧
    (c.length = 10 → findLinkByHash links c = none →
      getSharedBrainHandler users contents links c
        = .reject 404 ("Share link not found")) ∧
    (∀ l u, c.length = 10 → findLinkByHash links c = some l →
      findUserById users l.userId = some u →
      getSharedBrainHandler users contents links c
        = .ok u.username (contentOfUser contents l.userId)) := by
  refine ⟨?_, ?_, ?_⟩
  · intro hlen
    simp [getSharedBrainHandler, hlen]
  · intro hlen hnone
    have hne : ¬(c = "" ∨ c.length ≠ 10) := by
      rintro (h1 | h2)
      · subst h1
        exact absurd hlen (by decide)
      · exact h2 hlen
    simp [getSharedBrainHandler, hne, hnone]
  · intro l u hlen hfind huser
    have hne : ¬(c = "" ∨ c.length ≠ 10) := by
      rintro (h1 | h2)
      · subst h1
        exact absurd hlen (by decide)
      · exact h2 hlen
    simp [getSharedBrainHandler, hne, hfind, huser]

/-- Witness for C6 (amended): resolving a live code with its owner present
returns the username and content with no credential. -/
theorem getSharedBrain_resolve_amended_witness :
    getSharedBrainHandler [⟨"u1", "alice", "H"⟩] [] [⟨"abcdefghij", "u1"⟩] ("abcdefghij")
      = .ok ("alice") [] :=
  (getSharedBrain_resolve_amended [⟨"u1", "alice", "H"⟩] [] [⟨"abcdefghij", "u1"⟩]
    ("abcdefghij")).2.2 ⟨"abcdefghij", "u1"⟩ ⟨"u1", "alice", "H"⟩ (by decide)
    (by decide) (by decide)

/-- Claim C10: a 10-character code whose link exists in the store while the
owning user record is absent is answered 404 `User not found`, returning
neither a username nor content. -/
theorem getSharedBrain_missing_user (users : List User) (contents : List Content)
    (links : List Link) (c : String) (l : Link)
    (hlen : c.length = 10)
    (hfind : findLinkByHash links c = some l)
    (huser : findUserById users l.userId = none) :
    getSharedBrainHandler users contents links c = .reject 404 ("User not found") := by
  have hne : ¬(c = "" ∨ c.length ≠ 10) := by
    rintro (h1 | h2)
    · subst h1
      exact absurd hlen (by decide)
    · exact h2 hlen
  simp [getSharedBrainHandler, hne, hfind, huser]

/-- Witness for C10: a dangling link's code resolves to 404 `User not found`. -/
theorem getSharedBrain_missing_user_witness :
    getSharedBrainHandler [] [] [⟨"jjjjjjjjjj", "u9"⟩] ("jjjjjjjjjj")
      = .reject 404 ("User not found") :=
  getSharedBrain_missing_user [] [] [⟨"jjjjjjjjjj", "u9"⟩] ("jjjjjjjjjj")
    ⟨"jjjjjjjjjj", "u9"⟩ (by decide) (by decide) rfl

end BrainLink
